import Mathlib

/-!
Verification of the terminal video player (`src/main.py`) against its
natural-language specification.

The program decodes a video, rasterizes each frame to a grid of colored
terminal glyphs, presents the grid at a wall-clock cadence while an audio
process plays independently, and optionally re-encodes the rendered frames
into a video file.  The pure rendering core (`frame_to_ascii_colored`,
`frame_to_colored_blocks`, the fps fallback, the playback loop schedule,
the save-step control flow) is embedded shallowly below; external
collaborators (OpenCV resize/grayscale, ffmpeg, the terminal) are modelled
only through the interfaces the core uses.
-/

namespace TermVid

/-- A pixel: 8-bit red/green/blue intensities (stored as `Nat`, with
well-formedness `≤ 255` stated where a claim needs it).  OpenCV hands the
program pixels in BGR order; the record abstracts the channel order. -/
structure Pixel where
  r : Nat
  g : Nat
  b : Nat
deriving DecidableEq, Repr

def Pixel.zero : Pixel := ⟨0, 0, 0⟩

/-- A source or resized frame: a list of rows of pixels. -/
abbrev Frame := List (List Pixel)

/-- `f` is a well-formed `h × w` pixel grid. -/
def hasDims (f : Frame) (h w : Nat) : Prop :=
  f.length = h ∧ ∀ row ∈ f, row.length = w

instance (f : Frame) (h w : Nat) : Decidable (hasDims f h w) := by
  unfold hasDims; infer_instance

/-- `ascii_chars = " .:-=+*#%@"` from `src/main.py` line 14: the fixed
10-character brightness ramp, sparsest to densest. -/
def ascii_chars : List Char := [' ', '.', ':', '-', '=', '+', '*', '#', '%', '@']

/-- OpenCV `cvtColor(..., COLOR_BGR2GRAY)` for one pixel.  OpenCV computes
`Y = (4899*R + 9617*G + 1868*B + 8192) >> 14`, the fixed-point form of
`0.299 R + 0.587 G + 0.114 B` rounded to nearest. -/
def grayscale (p : Pixel) : Nat :=
  (4899 * p.r + 9617 * p.g + 1868 * p.b + 8192) / 16384

/-- The Glyph Mapper index `int(brightness / 256 * len(ascii_chars))` from
`src/main.py` line 32.  For `brightness ≤ 255` the Python float expression
is exact (`brightness / 256` is a division by a power of two and
`brightness * 10 ≤ 2550 < 2^53`), and `int` truncates toward zero on a
nonnegative value, so it equals the natural-number `brightness * N / 256`. -/
def asciiIndex (brightness : Nat) : Nat :=
  brightness * ascii_chars.length / 256

/-- One cell of the Render Grid: a displayed character plus its RGB color. -/
structure GlyphCell where
  ch : Char
  color : Pixel
deriving DecidableEq, Repr

/-- Modelled from the spec: the external resize collaborator
(`cv2.resize(frame, (w, h))`), an "area/interpolation-based resize" that
"must handle frames smaller or larger than target" and fails only on an
empty/malformed source or a non-positive target size.  Content is modelled
by nearest-index sampling; every claim below depends only on the output
dimensions, the failure condition, or the identity case (target size equal
to source size), on which any interpolation scheme agrees. -/
def resize (src : Frame) (w h : Int) : Option Frame :=
  if h ≤ 0 ∨ w ≤ 0 ∨ src.length = 0 ∨ (src.headD []).length = 0 then none
  else
    some <| (List.range h.toNat).map fun y =>
      (List.range w.toNat).map fun x =>
        (src.getD (y * src.length / h.toNat) []).getD
          (x * (src.headD []).length / w.toNat) Pixel.zero

/-- The ASCII-mode Glyph Mapper applied to one resized pixel
(`src/main.py` lines 30–33): ramp character at `asciiIndex` of the pixel's
grayscale brightness, colored with the pixel's own RGB. -/
def glyphAscii (p : Pixel) : GlyphCell :=
  ⟨ascii_chars.getD (asciiIndex (grayscale p)) ' ', p⟩

/-- The block-mode Glyph Mapper (`src/main.py` line 43): always the solid
block character, colored with the pixel's own RGB. -/
def glyphBlock (p : Pixel) : GlyphCell :=
  ⟨'█', p⟩

/-- `frame_to_ascii_colored` from `src/main.py` lines 23–35, as the Render
Grid it serializes: resize the source frame to
`(term_width, term_height - 2)`, then map each resized pixel through the
ASCII Glyph Mapper.  `none` models the `cv2.resize` error on an invalid
target or an empty source frame. -/
def frame_to_ascii_colored (frame : Frame) (term_width term_height : Nat) :
    Option (List (List GlyphCell)) :=
  (resize frame (term_width : Int) ((term_height : Int) - 2)).map fun rf =>
    rf.map fun row => row.map glyphAscii

/-- `frame_to_colored_blocks` from `src/main.py` lines 37–45, as the Render
Grid it serializes. -/
def frame_to_colored_blocks (frame : Frame) (term_width term_height : Nat) :
    Option (List (List GlyphCell)) :=
  (resize frame (term_width : Int) ((term_height : Int) - 2)).map fun rf =>
    rf.map fun row => row.map glyphBlock

/-- `get_terminal_resolution` from `src/main.py` lines 19–21: the reported
terminal columns/lines (any integers), each clamped to at least 1. -/
def get_terminal_resolution (cols lines : Int) : Nat × Nat :=
  ((max 1 cols).toNat, (max 1 lines).toNat)

/-! ### Playback Schedule -/

/-- The frame rate reported by the decoder (`cap.get(cv2.CAP_PROP_FPS)`):
either NaN or a finite numeric value, modelled as a rational. -/
inductive FpsReport where
  | nan
  | val (q : ℚ)
deriving DecidableEq, Repr

/-- The fps fallback from `src/main.py` lines 63–65:
`if fps <= 0 or np.isnan(fps): fps = 30`.  A NaN compares false against 0,
so it is caught by the `isnan` branch; the two checks together replace any
NaN or non-positive report with 30. -/
def effectiveFps : FpsReport → ℚ
  | .nan => 30
  | .val q => if q ≤ 0 then 30 else q

/-- `frame_time = 1 / fps` from `src/main.py` line 66, after the fallback. -/
def frame_time (r : FpsReport) : ℚ :=
  1 / effectiveFps r

/-! ### Playback loop -/

/-- One presented frame of the playback loop: its index, the computed
`delay = target_time - (now - start_time)`, the time actually slept, and
the instant (relative to `start_time`) at which the frame is shown. -/
structure PlayEvent where
  idx : Nat
  delay : ℚ
  slept : ℚ
  shownAt : ℚ
deriving DecidableEq, Repr

/-- The playback loop of `play_video` (`src/main.py` lines 76–92), as a
clock simulation.  `reads` gives the decoder's success flag (`ret`) for
each successive `cap.read()`; `cost i` is the wall-clock time consumed by
rasterizing and printing frame `i` (plus the next read); `now` is the time
elapsed since `start_time`.  Per iteration `i`: on a failed read the loop
breaks; otherwise `target_time = i * frame_time`,
`delay = target_time - now`, the thread sleeps `delay` when positive, and
the frame is presented. -/
def playLoop (ft : ℚ) (cost : Nat → ℚ) : Nat → ℚ → List Bool → List PlayEvent
  | _, _, [] => []
  | i, now, ret :: rest =>
    if ret then
      let d : ℚ := i * ft - now
      let s : ℚ := if 0 < d then d else 0
      ⟨i, d, s, now + s⟩ :: playLoop ft cost (i + 1) (now + s + cost i) rest
    else []

/-! ### Optional save step -/

/-- Python `str.strip()` whitespace set (the characters stripped from a
prompt answer). -/
def isPySpace (c : Char) : Bool :=
  c = ' ' ∨ c = '\t' ∨ c = '\n' ∨ c = '\r' ∨ c = Char.ofNat 11 ∨ c = Char.ofNat 12

/-- Python `str.strip()`: drop leading and trailing whitespace. -/
def pyStrip (s : List Char) : List Char :=
  ((s.dropWhile isPySpace).reverse.dropWhile isPySpace).reverse

/-- Python `str.lower()` on the ASCII range (sufficient for the `"y"`
comparison the save prompt makes). -/
def pyLower (s : List Char) : List Char :=
  s.map fun c => if 'A' ≤ c ∧ c ≤ 'Z' then Char.ofNat (c.toNat + 32) else c

/-- The externally visible side effects of `save_as_video`
(`src/main.py` lines 98–156): filesystem writes, encoder (ffmpeg)
invocations, and deletions of the temporary resources. -/
inductive SaveAction where
  /-- `os.makedirs("tempframes")` -/
  | makeFramesDir
  /-- `cv2.imwrite(f"tempframes/frame{i:04}.png", f)` -/
  | writeFrameImage (i : Nat)
  /-- `extract_audio(...)`: an ffmpeg invocation writing `temp_audio_output.aac` -/
  | extractAudio
  /-- the final ffmpeg mux invocation -/
  | runMux
  /-- `shutil.rmtree("tempframes")` -/
  | removeFramesDir
  /-- `os.remove(temp_audio)` -/
  | removeAudioAsset
deriving DecidableEq, Repr

/-- Outcome of the mux `subprocess.run` call: `exited code` when the child
process ran and returned (any exit status — `run` is called without
`check=True`, so a non-zero ffmpeg exit raises nothing), or `raised` when
the invocation itself raised an exception (e.g. `FileNotFoundError` for a
missing ffmpeg binary). -/
inductive MuxOutcome where
  | exited (code : Nat)
  | raised
deriving DecidableEq, Repr

/-- `save_as_video` from `src/main.py` lines 98–156, as its trace of side
effects.  `choice` is the raw prompt answer; the step is a no-op unless
`choice.strip().lower() == "y"`.  Otherwise it creates the temporary frame
directory, writes one image per collected frame, extracts the temporary
audio asset, invokes the mux; the two cleanup deletions are straight-line
code after the invocation (no `try`/`finally`), so they run when the
invocation returns — whatever its exit status — and are skipped when it
raises, the exception propagating out of the function. -/
def save_as_video (choice : List Char) (numFrames : Nat) (mux : MuxOutcome) :
    List SaveAction :=
  if pyLower (pyStrip choice) ≠ ['y'] then []
  else
    SaveAction.makeFramesDir ::
      (List.range numFrames).map SaveAction.writeFrameImage ++
      [SaveAction.extractAudio, SaveAction.runMux] ++
      (match mux with
        | .raised => []
        | .exited _ => [SaveAction.removeFramesDir, SaveAction.removeAudioAsset])

/-! ### Recording Canvas (save step, ASCII mode) -/

/-- A numpy-style 2-D pixel array of fixed shape `h × w`. -/
abbrev PixArray (h w : Nat) := Fin h → Fin w → Pixel

/-- Point assignment `a[y, x] = v` on a 2-D pixel array. -/
def npSet {h w : Nat} (a : PixArray h w) (y : Fin h) (x : Fin w) (v : Pixel) :
    PixArray h w :=
  fun i j => if i = y ∧ j = x then v else a i j

/-- The ASCII-mode Recording Canvas loop of `save_as_video`
(`src/main.py` lines 122–129): start from `np.zeros_like(frame)` and, for
every `y` and `x` of the resized frame, compute the glyph character (which
the loop then discards) and assign `canvas[y, x] = (b, g, r)`, the resized
frame's own pixel. -/
def asciiCanvas {h w : Nat} (f : PixArray h w) : PixArray h w :=
  (List.finRange h).foldl
    (fun c y =>
      (List.finRange w).foldl (fun c2 x => npSet c2 y x (f y x)) c)
    (fun _ _ => Pixel.zero)

/-- The frame appended to `frames` in the save step (`src/main.py`
lines 120–130): the ASCII-mode canvas when `use_ascii`, the resized frame
itself otherwise. -/
def savedCanvas {h w : Nat} (use_ascii : Bool) (f : PixArray h w) :
    PixArray h w :=
  if use_ascii then asciiCanvas f else f

/-! ## Helper lemmas -/

lemma takeWhile_id_all_true :
    ∀ (l : List Bool), (∀ b ∈ l, b = true) → l.takeWhile id = l := by
  intro l
  induction l with
  | nil => intro _; rfl
  | cons a t ih =>
    intro h
    have ha : a = true := h a (List.mem_cons_self a t)
    subst ha
    simp [List.takeWhile_cons, ih fun b hb => h b (List.mem_cons_of_mem _ hb)]

lemma takeWhile_id_append_false (post : List Bool) :
    ∀ (pre : List Bool), (∀ b ∈ pre, b = true) →
      (pre ++ false :: post).takeWhile id = pre := by
  intro pre
  induction pre with
  | nil => intro _; simp [List.takeWhile_cons]
  | cons a t ih =>
    intro h
    have ha : a = true := h a (List.mem_cons_self a t)
    subst ha
    simp [List.takeWhile_cons, ih fun b hb => h b (List.mem_cons_of_mem _ hb)]

lemma playLoop_nil (ft : ℚ) (cost : Nat → ℚ) (i : Nat) (now : ℚ) :
    playLoop ft cost i now [] = [] := rfl

lemma playLoop_cons_false (ft : ℚ) (cost : Nat → ℚ) (i : Nat) (now : ℚ)
    (rest : List Bool) :
    playLoop ft cost i now (false :: rest) = [] := rfl

lemma playLoop_cons_true (ft : ℚ) (cost : Nat → ℚ) (i : Nat) (now : ℚ)
    (rest : List Bool) :
    playLoop ft cost i now (true :: rest) =
      ⟨i, (i : ℚ) * ft - now,
        (if 0 < (i : ℚ) * ft - now then (i : ℚ) * ft - now else 0),
        now + (if 0 < (i : ℚ) * ft - now then (i : ℚ) * ft - now else 0)⟩ ::
      playLoop ft cost (i + 1)
        (now + (if 0 < (i : ℚ) * ft - now then (i : ℚ) * ft - now else 0) + cost i)
        rest := rfl

lemma playLoop_map_idx (ft : ℚ) (cost : Nat → ℚ) :
    ∀ (reads : List Bool) (i : Nat) (now : ℚ),
      (playLoop ft cost i now reads).map (·.idx) =
        (List.range (reads.takeWhile id).length).map (· + i) := by
  intro reads
  induction reads with
  | nil => intro i now; simp [playLoop_nil]
  | cons a rest ih =>
    intro i now
    cases a with
    | false => simp [playLoop_cons_false, List.takeWhile_cons]
    | true =>
      rw [playLoop_cons_true, List.map_cons, ih, List.takeWhile_cons]
      simp only [id_eq, if_pos, List.length_cons, List.range_succ_eq_map,
        List.map_cons, List.map_map, Nat.zero_add]
      refine List.cons_eq_cons.mpr ⟨rfl, ?_⟩
      apply List.map_congr_left
      intro m _
      simp only [Function.comp_apply]
      omega

lemma playLoop_timing (ft : ℚ) (cost : Nat → ℚ) :
    ∀ (reads : List Bool) (i : Nat) (now : ℚ),
      ∀ e ∈ playLoop ft cost i now reads,
        e.slept = (if 0 < e.delay then e.delay else 0) ∧
        e.shownAt =
          (if 0 < e.delay then (e.idx : ℚ) * ft else (e.idx : ℚ) * ft - e.delay) := by
  intro reads
  induction reads with
  | nil => intro i now e he; simp [playLoop_nil] at he
  | cons a rest ih =>
    intro i now e he
    cases a with
    | false => simp [playLoop_cons_false] at he
    | true =>
      rw [playLoop_cons_true, List.mem_cons] at he
      rcases he with rfl | he
      · refine ⟨rfl, ?_⟩
        by_cases hd : 0 < (i : ℚ) * ft - now
        · simp only [hd, if_pos]
          ring
        · simp only [hd, if_neg, not_false_iff, if_false]
          ring
      · exact ih (i + 1) _ e he

lemma resize_some_dims (src : Frame) (w h : Nat) (hw : 1 ≤ w) (hh : 1 ≤ h)
    (hsrc : src.length ≠ 0) (hhead : (src.headD []).length ≠ 0) :
    ∃ rf, resize src (w : Int) (h : Int) = some rf ∧ hasDims rf h w := by
  have hcond : ¬ ((h : Int) ≤ 0 ∨ (w : Int) ≤ 0 ∨ src.length = 0 ∨
      (src.headD []).length = 0) := by
    push_neg
    refine ⟨by exact_mod_cast Nat.lt_of_lt_of_le Nat.zero_lt_one hh,
      by exact_mod_cast Nat.lt_of_lt_of_le Nat.zero_lt_one hw, hsrc, hhead⟩
  refine ⟨_, by rw [resize, if_neg hcond], ?_⟩
  constructor
  · simp
  · intro row hrow
    rcases List.mem_map.mp hrow with ⟨y, _, rfl⟩
    simp

lemma innerFold_apply {h w : Nat} (f : PixArray h w) (y : Fin h) :
    ∀ (xs : List (Fin w)) (c : PixArray h w) (i : Fin h) (j : Fin w),
      (xs.foldl (fun c2 x => npSet c2 y x (f y x)) c) i j =
        if i = y ∧ j ∈ xs then f y j else c i j := by
  intro xs
  induction xs with
  | nil => intro c i j; simp
  | cons x xs ih =>
    intro c i j
    rw [List.foldl_cons, ih]
    by_cases hiy : i = y
    · subst hiy
      by_cases hjx : j ∈ xs
      · simp [hjx, List.mem_cons]
      · by_cases hje : j = x
        · subst hje
          simp [hjx, npSet]
        · simp [hjx, hje, npSet, List.mem_cons]
    · simp [hiy, npSet]

lemma outerFold_apply {h w : Nat} (f : PixArray h w) :
    ∀ (ys : List (Fin h)) (c : PixArray h w) (i : Fin h) (j : Fin w),
      (ys.foldl
        (fun c y => (List.finRange w).foldl (fun c2 x => npSet c2 y x (f y x)) c)
        c) i j =
        if i ∈ ys then f i j else c i j := by
  intro ys
  induction ys with
  | nil => intro c i j; simp
  | cons y ys ih =>
    intro c i j
    rw [List.foldl_cons, ih, innerFold_apply]
    by_cases hiys : i ∈ ys
    · simp [hiys, List.mem_cons]
    · by_cases hiy : i = y
      · subst hiy
        simp [hiys, List.mem_finRange, List.mem_cons]
      · simp [hiys, hiy, List.mem_cons]

/-! ## Claims -/

/-- C1: for every brightness `b ≤ 255` and the 10-character palette, the
ASCII Glyph Mapper index `int(b / 256 * N)` satisfies `0 ≤ index < N`, so
the `ascii_chars[index]` lookup never goes out of bounds, including at
`b = 255`. -/
theorem glyph_index_in_bounds (b : Nat) (hb : b ≤ 255) :
    ascii_chars.length = 10 ∧ asciiIndex b < ascii_chars.length ∧
    (ascii_chars.get? (asciiIndex b)).isSome := by
  have h10 : ascii_chars.length = 10 := rfl
  have hlt : asciiIndex b < ascii_chars.length := by
    rw [asciiIndex, h10]
    exact Nat.div_lt_of_lt_mul (by omega)
  refine ⟨h10, hlt, ?_⟩
  simp [List.get?_eq_getElem?, hlt]

/-- Witness for C1 at the maximum brightness boundary `b = 255`. -/
theorem glyph_index_in_bounds_witness :
    ascii_chars.length = 10 ∧ asciiIndex 255 < ascii_chars.length ∧
    (ascii_chars.get? (asciiIndex 255)).isSome :=
  glyph_index_in_bounds 255 (by norm_num)

/-- C2 counterexample: with three scheduled frames whose reads are
success, failure, success, the loop presents only frame 0 — the failed
read at index 1 is not skipped over, and frame 2 is never presented, so a
per-frame decode failure does end playback early (`if not ret: break` at
`src/main.py` lines 77–79). -/
theorem read_failure_not_skipped_cex :
    (playLoop 1 (fun _ => 0) 0 0 [true, false, true]).map (·.idx) = [0] ∧
    2 ∉ (playLoop 1 (fun _ => 0) 0 0 [true, false, true]).map (·.idx) := by
  decide

/-- C2 amended: when the decoder fails to return a valid frame at some
index, the playback loop breaks out and playback ends there: exactly the
frames before the first failed read are presented, in order, and no later
frame is. -/
theorem read_failure_ends_playback (ft : ℚ) (cost : Nat → ℚ)
    (pre post : List Bool) (hpre : ∀ b ∈ pre, b = true) :
    (playLoop ft cost 0 0 (pre ++ false :: post)).map (·.idx) =
      List.range pre.length := by
  rw [playLoop_map_idx, takeWhile_id_append_false post pre hpre]
  simp

/-- Witness for the amended C2: one successful read, then a failure, then
an unreached successful read. -/
theorem read_failure_ends_playback_witness :
    (playLoop 1 (fun _ => 0) 0 0 ([true] ++ false :: [true])).map (·.idx) =
      List.range 1 :=
  read_failure_ends_playback 1 (fun _ => 0) [true] [true] (by decide)

/-- C3 counterexample: with a "y" answer and one frame, when the mux
invocation raises, the trace of `save_as_video` reaches the mux but
contains neither `removeFramesDir` nor `removeAudioAsset`: the cleanup is
straight-line code after `subprocess.run` (`src/main.py` lines 154–155),
not a scoped release, so it is skipped on the raising exit path. -/
theorem mux_raise_skips_cleanup_cex :
    SaveAction.runMux ∈ save_as_video ['y'] 1 MuxOutcome.raised ∧
    SaveAction.removeFramesDir ∉ save_as_video ['y'] 1 MuxOutcome.raised ∧
    SaveAction.removeAudioAsset ∉ save_as_video ['y'] 1 MuxOutcome.raised := by
  decide

/-- C3 amended: the temporary frame directory and temporary audio asset
are both deleted whenever the mux invocation returns — with success or
with any failure exit status, since `subprocess.run` is called without
`check=True` — but when the invocation itself raises, the exception
propagates and both deletions are skipped. -/
theorem cleanup_runs_when_mux_returns (choice : List Char) (n code : Nat)
    (hy : pyLower (pyStrip choice) = ['y']) :
    (SaveAction.removeFramesDir ∈ save_as_video choice n (MuxOutcome.exited code) ∧
     SaveAction.removeAudioAsset ∈ save_as_video choice n (MuxOutcome.exited code)) ∧
    (SaveAction.removeFramesDir ∉ save_as_video choice n MuxOutcome.raised ∧
     SaveAction.removeAudioAsset ∉ save_as_video choice n MuxOutcome.raised) := by
  simp [save_as_video, hy]

/-- Witness for the amended C3 at an encoder failure exit status. -/
theorem cleanup_runs_when_mux_returns_witness :
    (SaveAction.removeFramesDir ∈ save_as_video ['y'] 2 (MuxOutcome.exited 1) ∧
     SaveAction.removeAudioAsset ∈ save_as_video ['y'] 2 (MuxOutcome.exited 1)) ∧
    (SaveAction.removeFramesDir ∉ save_as_video ['y'] 2 MuxOutcome.raised ∧
     SaveAction.removeAudioAsset ∉ save_as_video ['y'] 2 MuxOutcome.raised) :=
  cleanup_runs_when_mux_returns ['y'] 2 1 (by decide)

/-- C4: a reported frame rate that is NaN, zero or negative falls back to
an effective interval of exactly `1/30`; any positive (finite) report `q`
yields interval `1/q`. -/
theorem fps_fallback_interval :
    frame_time FpsReport.nan = 1 / 30 ∧
    (∀ q : ℚ, q ≤ 0 → frame_time (FpsReport.val q) = 1 / 30) ∧
    (∀ q : ℚ, 0 < q → frame_time (FpsReport.val q) = 1 / q) := by
  refine ⟨rfl, ?_, ?_⟩
  · intro q hq
    simp only [frame_time, effectiveFps]
    rw [if_pos hq]
  · intro q hq
    simp only [frame_time, effectiveFps]
    rw [if_neg (not_le.mpr hq)]

/-- Witness for C4 at a negative report and at a valid 24 fps report. -/
theorem fps_fallback_interval_witness :
    frame_time (FpsReport.val (-5)) = 1 / 30 ∧
    frame_time (FpsReport.val 24) = 1 / 24 :=
  ⟨fps_fallback_interval.2.1 (-5) (by norm_num),
   fps_fallback_interval.2.2 24 (by norm_num)⟩

/-- C5: when every read succeeds, the playback loop presents the frame
indices exactly in order `0, 1, …, count−1` — never reordered, never
skipped — and per frame it sleeps exactly the computed `delay` when that
is positive (so the frame is shown exactly at `target_time = i * ft`) and
sleeps nothing when `delay ≤ 0` (shown immediately at the late arrival
time `i * ft − delay`, with no catch-up skipping). -/
theorem playback_order_no_skip (ft : ℚ) (cost : Nat → ℚ) (reads : List Bool)
    (hall : ∀ b ∈ reads, b = true) :
    (playLoop ft cost 0 0 reads).map (·.idx) = List.range reads.length ∧
    ∀ e ∈ playLoop ft cost 0 0 reads,
      e.slept = (if 0 < e.delay then e.delay else 0) ∧
      e.shownAt =
        (if 0 < e.delay then (e.idx : ℚ) * ft else (e.idx : ℚ) * ft - e.delay) := by
  constructor
  · rw [playLoop_map_idx, takeWhile_id_all_true reads hall]
    simp
  · exact playLoop_timing ft cost reads 0 0

/-- Witness for C5 on a three-frame stream with slow per-frame cost. -/
theorem playback_order_no_skip_witness :
    (playLoop 1 (fun _ => 2) 0 0 [true, true, true]).map (·.idx) =
      List.range 3 :=
  (playback_order_no_skip 1 (fun _ => 2) [true, true, true] (by decide)).1

/-- C6: for every well-formed non-empty source frame and every requested
grid size `(w, h)` with `w, h ≥ 1` — in the program, `w` the sampled
terminal width and `h` the sampled terminal height minus the fixed 2-row
margin — both rasterizers produce a Render Grid of exactly `h` rows of `w`
glyph cells, whatever the source size. -/
theorem raster_grid_dims (f : Frame) (sh sw w h : Nat)
    (hf : hasDims f sh sw) (hsh : 1 ≤ sh) (hsw : 1 ≤ sw)
    (hw : 1 ≤ w) (hh : 1 ≤ h) :
    (∃ grid, frame_to_ascii_colored f w (h + 2) = some grid ∧
      grid.length = h ∧ ∀ row ∈ grid, row.length = w) ∧
    (∃ grid, frame_to_colored_blocks f w (h + 2) = some grid ∧
      grid.length = h ∧ ∀ row ∈ grid, row.length = w) := by
  have hsrc : f.length ≠ 0 := by rw [hf.1]; omega
  have hhead : (f.headD []).length ≠ 0 := by
    cases f with
    | nil => simp at hsrc
    | cons a t =>
      have ha : a.length = sw := hf.2 a (List.mem_cons_self a t)
      simp only [List.headD_cons, ha]
      omega
  obtain ⟨rf, hrf, hdims⟩ := resize_some_dims f w h hw hh hsrc hhead
  have hcast : ((h + 2 : Nat) : Int) - 2 = (h : Int) := by push_cast; ring
  constructor
  · refine ⟨rf.map fun row => row.map glyphAscii, ?_, ?_, ?_⟩
    · rw [frame_to_ascii_colored, hcast, hrf]
      rfl
    · simp [hdims.1]
    · intro row hrow
      rcases List.mem_map.mp hrow with ⟨r0, hr0, rfl⟩
      simp [hdims.2 r0 hr0]
  · refine ⟨rf.map fun row => row.map glyphBlock, ?_, ?_, ?_⟩
    · rw [frame_to_colored_blocks, hcast, hrf]
      rfl
    · simp [hdims.1]
    · intro row hrow
      rcases List.mem_map.mp hrow with ⟨r0, hr0, rfl⟩
      simp [hdims.2 r0 hr0]

/-- Witness for C6: a 1×1 source rendered to a 1×1 requested grid
(terminal height 3). -/
theorem raster_grid_dims_witness :
    (∃ grid, frame_to_ascii_colored [[Pixel.zero]] 1 3 = some grid ∧
      grid.length = 1 ∧ ∀ row ∈ grid, row.length = 1) ∧
    (∃ grid, frame_to_colored_blocks [[Pixel.zero]] 1 3 = some grid ∧
      grid.length = 1 ∧ ∀ row ∈ grid, row.length = 1) :=
  raster_grid_dims [[Pixel.zero]] 1 1 1 1 (by decide) (by decide) (by decide)
    (by decide) (by decide)

/-- C7: the ASCII Glyph Mapper colors every cell with the pixel's own RGB
and picks the ramp character at index `⌊brightness / 256 · N⌋`; on the
2×1 source with pixels `(255,0,0)` and `(0,0,0)` rendered to a `(2,1)`
grid (terminal height 3) with the 10-character ramp, the left cell has
brightness 76, ramp index 2 — the low-ramp character `':'` — with color
`(255,0,0)`, and the right cell is `ramp[0]`, the space, with color
`(0,0,0)`. -/
theorem ascii_mapper_end_to_end :
    frame_to_ascii_colored [[⟨255, 0, 0⟩, ⟨0, 0, 0⟩]] 2 3 =
      some [[⟨':', ⟨255, 0, 0⟩⟩, ⟨' ', ⟨0, 0, 0⟩⟩]] ∧
    grayscale ⟨255, 0, 0⟩ = 76 ∧ asciiIndex 76 = 2 ∧
    ascii_chars.getD 2 ' ' = ':' ∧ ascii_chars.getD 0 ' ' = ' ' ∧
    ∀ p : Pixel, (glyphAscii p).color = p := by
  refine ⟨by decide, by decide, by decide, rfl, rfl, fun p => rfl⟩

/-- C8: if the prompt answer, stripped and lowercased, is anything other
than `"y"`, `save_as_video` returns with an empty side-effect trace: no
filesystem writes, no deletions, and no encoder invocation. -/
theorem decline_save_noop (choice : List Char) (n : Nat) (mux : MuxOutcome)
    (h : pyLower (pyStrip choice) ≠ ['y']) :
    save_as_video choice n mux = [] := by
  rw [save_as_video.eq_def, if_pos h]

/-- Witness for C8 on a declined answer with surrounding whitespace. -/
theorem decline_save_noop_witness :
    save_as_video [' ', 'N', '\n'] 5 (MuxOutcome.exited 0) = [] :=
  decline_save_noop [' ', 'N', '\n'] 5 (MuxOutcome.exited 0) (by decide)

/-- C9: with a valid non-empty source frame and positive width, the
rasterizer succeeds exactly when the sampled terminal height is at least
3 — for height 1 or 2 the resize target height `h − 2` is non-positive
and rasterization fails (`none`) instead of producing a grid; and the
clamped terminal height 1 is reachable (`get_terminal_resolution` on a
reported single-line terminal). -/
theorem raster_requires_height_ge_three (f : Frame) (w h : Nat)
    (hf : f.length ≠ 0) (hrow : (f.headD []).length ≠ 0) (hw : 1 ≤ w) :
    ((frame_to_ascii_colored f w h).isSome ↔ 3 ≤ h) ∧
    get_terminal_resolution 80 1 = (80, 1) := by
  refine ⟨?_, rfl⟩
  have key : (frame_to_ascii_colored f w h).isSome ↔
      ¬ ((h : Int) - 2 ≤ 0 ∨ (w : Int) ≤ 0 ∨ f.length = 0 ∨
        (f.headD []).length = 0) := by
    rw [frame_to_ascii_colored, resize]
    by_cases hcond : ((h : Int) - 2 ≤ 0 ∨ (w : Int) ≤ 0 ∨ f.length = 0 ∨
        (f.headD []).length = 0)
    · simp [hcond]
    · simp [hcond]
  rw [key]
  constructor
  · intro hnot
    by_contra h3
    exact hnot (Or.inl (by omega))
  · intro h3
    push_neg
    exact ⟨by omega, by omega, hf, hrow⟩

/-- Witness for C9: a 1×1 frame fails at terminal height 1 and succeeds
at terminal height 3. -/
theorem raster_requires_height_ge_three_witness :
    ((frame_to_ascii_colored [[Pixel.zero]] 1 1).isSome ↔ 3 ≤ 1) ∧
    ((frame_to_ascii_colored [[Pixel.zero]] 1 3).isSome ↔ 3 ≤ 3) :=
  ⟨(raster_requires_height_ge_three [[Pixel.zero]] 1 1 (by decide) (by decide)
      (by decide)).1,
   (raster_requires_height_ge_three [[Pixel.zero]] 1 3 (by decide) (by decide)
      (by decide)).1⟩

/-- C10: the ASCII-mode Recording Canvas loop of the save step writes
every cell with the resized frame's own pixel — the glyph character it
computes is discarded — so the canvas equals the resized frame exactly
and the frame appended for encoding is independent of the ASCII/block
mode flag. -/
theorem ascii_canvas_eq_resized_frame :
    ∀ (h w : Nat) (f : PixArray h w),
      asciiCanvas f = f ∧ savedCanvas true f = savedCanvas false f := by
  intro h w f
  have key : asciiCanvas f = f := by
    funext i j
    rw [asciiCanvas,
      outerFold_apply f (List.finRange h) (fun _ _ => Pixel.zero) i j]
    simp [List.mem_finRange]
  exact ⟨key, by simp [savedCanvas, key]⟩

end TermVid
